import Mathlib

/-!
Verification of the connection protocol engine of `go-simple-http`.

The definitions below are a shallow embedding of the Go sources, primarily
`src/httpx/reader.go` (the keep-alive engine) and `src/httpx/const.go`.
Byte streams are modelled as `List Char` (all data relevant here is ASCII,
one `Char` per byte); the connection is a byte list consumed from the front;
Go's `int64` values are Lean `Int` with the explicit int64 range check where
the source performs one (`strconv.ParseInt`); fallible operations return
`Except`/`Option`.  Every definition is computable so that concrete requests
can be evaluated inside proofs.
-/

/-- Constants from `src/httpx/const.go`: `DefaultChunkSize = 8192`. -/
def defaultChunkSize : Nat := 8192

/-- Constant `HTTP11Version = "HTTP/1.1"` from `src/httpx/const.go`. -/
def http11Version : List Char := "HTTP/1.1".toList

/-- Constant `HTTP10Version = "HTTP/1.0"` from `src/httpx/const.go`. -/
def http10Version : List Char := "HTTP/1.0".toList

/-- Constant `ContentLengthHeader = "content-length"` from `src/httpx/const.go`. -/
def contentLengthKey : List Char := "content-length".toList

/-- Constant `TransferEncodingHeader = "transfer-encoding"` from `src/httpx/const.go`. -/
def transferEncodingKey : List Char := "transfer-encoding".toList

/-- Constant `ConnectionHeader = "connection"` from `src/httpx/const.go`. -/
def connectionKey : List Char := "connection".toList

/-- Constant `KeepAliveHeader = "keep-alive"` from `src/httpx/const.go`. -/
def keepAliveKey : List Char := "keep-alive".toList

/-- The literal `"chunked"` compared against transfer-encoding values
(`src/httpx/reader.go:189`) and assigned by the response encoder
(`src/httpx/reader.go:213`). -/
def chunkedValue : List Char := "chunked".toList

/-- The literal `"close"` compared against and assigned to `connection`
header values (`src/httpx/reader.go:327,403`). -/
def closeValue : List Char := "close".toList

/-- The literal `"keep-alive"` compared against and assigned to `connection`
header values (`src/httpx/reader.go:332,396`). -/
def keepAliveValue : List Char := "keep-alive".toList

/-- Go `unicode.IsSpace` restricted to the ASCII space characters
(space, tab, newline, vertical tab, form feed, carriage return).
The Go function also accepts some non-ASCII Unicode spaces; all data in the
engine's protocol elements is ASCII, where the two functions agree. -/
def isSpaceGo (c : Char) : Bool :=
  c == ' ' || c == '\t' || c == '\n' || c == '\x0b' || c == '\x0c' || c == '\r'

/-- Helper for `fieldsGo`: split a byte list at every space character
(the separators are dropped, empty segments are kept). -/
def splitOnSpaces : List Char → List (List Char)
  | [] => [[]]
  | c :: rest =>
    if isSpaceGo c then [] :: splitOnSpaces rest
    else
      match splitOnSpaces rest with
      | [] => [[c]]
      | s :: ss => (c :: s) :: ss

/-- Go `strings.Fields`: split around runs of whitespace, returning the
non-empty maximal substrings (used on the request line,
`src/httpx/reader.go:153`). -/
def fieldsGo (s : List Char) : List (List Char) :=
  (splitOnSpaces s).filter (fun l => !l.isEmpty)

/-- Go `bytes.Split(data, []byte("\r\n"))` (`src/httpx/reader.go:147`):
split on each non-overlapping occurrence of CRLF, left to right. -/
def splitCRLF : List Char → List (List Char)
  | [] => [[]]
  | '\r' :: '\n' :: rest => [] :: splitCRLF rest
  | c :: rest =>
    match splitCRLF rest with
    | [] => [[c]]
    | s :: ss => (c :: s) :: ss

/-- Go `bufio.Reader.ReadBytes('\n')` on a byte stream: return the bytes up
to and including the first newline together with the unread remainder, or
`none` when the stream ends before a newline is found (in which case
`ReadBytes` returns an error and `parseRequest` fails,
`src/httpx/reader.go:130-133`). -/
def readLine : List Char → Option (List Char × List Char)
  | [] => none
  | c :: rest =>
    if c = '\n' then some ([c], rest)
    else
      match readLine rest with
      | none => none
      | some (l, r) => some (c :: l, r)

/-- Errors raised by the engine, named after the spec's taxonomy; the comment
on each constructor gives the Go error text from `src/httpx/reader.go`. -/
inductive ParseError
  /-- Go: "error reading headers: ..." (EOF before the head terminator). -/
  | incompleteRead
  /-- Go: "headers too large" (`src/httpx/reader.go:142`). -/
  | headerTooLarge
  /-- Go: "invalid request format" (`src/httpx/reader.go:150`). -/
  | invalidRequestFormat
  /-- Go: "invalid request line" (`src/httpx/reader.go:155`). -/
  | malformedRequestLine
  /-- Go: "invalid content-length: %s" (`src/httpx/reader.go:186`). -/
  | invalidContentLength (value : List Char)
deriving DecidableEq

/-- The header-block reading loop of `parseRequest`
(`src/httpx/reader.go:129-144`): read a line, append it to the buffer,
stop successfully on a bare CRLF line, and fail with `headerTooLarge` as soon
as the buffer exceeds `maxH` bytes (the size check runs after the blank-line
check, exactly as in the source).  The `fuel` argument only bounds the
recursion so the definition is structural and kernel-reducible; every
iteration consumes at least one input byte, so any `fuel > input.length`
behaves like the unbounded loop (`readHead` passes `input.length + 1`). -/
def readHeadFuel (maxH : Nat) : Nat → List Char → List Char →
    Except ParseError (List Char × List Char)
  | 0, _, _ => .error .incompleteRead
  | Nat.succ f, buf, input =>
    match readLine input with
    | none => .error .incompleteRead
    | some (line, rest) =>
      if line = ['\r', '\n'] then .ok (buf ++ line, rest)
      else if maxH < (buf ++ line).length then .error .headerTooLarge
      else readHeadFuel maxH f (buf ++ line) rest

/-- Read the request head (all lines up to and including the terminating bare
CRLF) from the connection, returning the header block bytes and the unread
remainder of the connection (`src/httpx/reader.go:125-144`). -/
def readHead (maxH : Nat) (buf : List Char) (input : List Char) :
    Except ParseError (List Char × List Char) :=
  readHeadFuel maxH (input.length + 1) buf input

/-- Go `strings.TrimSpace`: drop leading and trailing whitespace. -/
def trimSpaceGo (s : List Char) : List Char :=
  ((s.dropWhile isSpaceGo).reverse.dropWhile isSpaceGo).reverse

/-- Go `strings.ToLower` (ASCII; protocol elements compared by the engine are
ASCII, where Go's Unicode lowering agrees with `Char.toLower`). -/
def lowerL (s : List Char) : List Char := s.map Char.toLower

/-- Go `strings.SplitN(line, ":", 2)`: `some (before, after)` when the line
contains a colon (two parts), `none` when it does not (one part, and the
header line is silently skipped, `src/httpx/reader.go:172-177`). -/
def splitFirstColon : List Char → Option (List Char × List Char)
  | [] => none
  | c :: rest =>
    if c = ':' then some ([], rest)
    else
      match splitFirstColon rest with
      | none => none
      | some (a, b) => some (c :: a, b)

/-- A Go `map[string]string` modelled as an association list with at most one
entry per key: assignment `m[k] = v` replaces the existing entry or appends. -/
def hinsert (k v : List Char) : List (List Char × List Char) →
    List (List Char × List Char)
  | [] => [(k, v)]
  | (k2, v2) :: rest =>
    if k2 = k then (k, v) :: rest else (k2, v2) :: hinsert k v rest

/-- Go map lookup `m[k]`. -/
def hlookup (k : List Char) (hs : List (List Char × List Char)) :
    Option (List Char) :=
  (hs.find? (fun p => p.1 == k)).map (fun p => p.2)

/-- One iteration of the header-line loop (`src/httpx/reader.go:166-178`):
trim the line, skip it when empty or colon-free, otherwise lower-case and
trim the name, trim the value, and assign into the header map (later
occurrences of a name overwrite earlier ones). -/
def headerLineInsert (hs : List (List Char × List Char)) (raw : List Char) :
    List (List Char × List Char) :=
  let line := trimSpaceGo raw
  if line.isEmpty then hs
  else
    match splitFirstColon line with
    | none => hs
    | some (k, v) => hinsert (lowerL (trimSpaceGo k)) (trimSpaceGo v) hs

/-- The header-line loop `for i := 1; i < len(lines)-1; i++`
(`src/httpx/reader.go:166`): every split line except the first (the request
line) and the last is fed to `headerLineInsert`. -/
def parseHeaderLines (lines : List (List Char)) :
    List (List Char × List Char) :=
  ((lines.drop 1).dropLast).foldl headerLineInsert []

/-- Decimal value of a digit string (helper for `goParseInt`). -/
def digitsVal (ds : List Char) : Nat :=
  ds.foldl (fun a c => a * 10 + (c.toNat - 48)) 0

/-- Go `strconv.ParseInt(s, 10, 64)`: an optional sign followed by at least
one decimal digit, the value required to fit in int64; anything else is an
error (`none`). -/
def goParseInt (s : List Char) : Option Int :=
  let signDigits : Int × List Char :=
    match s with
    | '+' :: r => (1, r)
    | '-' :: r => (-1, r)
    | r => (1, r)
  if signDigits.2.isEmpty then none
  else if signDigits.2.all (fun c => c.isDigit) then
    let v : Int := signDigits.1 * (digitsVal signDigits.2 : Int)
    if -(2 ^ 63) ≤ v ∧ v ≤ 2 ^ 63 - 1 then some v else none
  else none

/-- The three body framings `parseRequest` can attach to a request
(`src/httpx/reader.go:180-195`): a fixed-length view `io.LimitReader(reader,
length)`, the chunked reader `newChunkedReader(reader)`, or the immediately
exhausted `emptyReader`. -/
inductive BodyKind
  | empty
  | limited (n : Int)
  | chunked
deriving DecidableEq

/-- The `HTTPRequest` structure (`src/httpx/reader.go:40-49`); the `io.Reader`
body is represented by its framing (`BodyKind`), to be interpreted against
the unread remainder of the connection by `readBodyAll`. -/
structure RequestModel where
  method : List Char
  path : List Char
  version : List Char
  headers : List (List Char × List Char)
  bodySize : Int
  isChunked : Bool
  body : BodyKind
deriving DecidableEq

/-- The pure part of `parseRequest` that runs on the header-block bytes
(`src/httpx/reader.go:146-197`): split on CRLF, tokenize the request line
into exactly three fields, build the header map, then decide body framing
(content-length first, then chunked transfer-encoding, else empty). -/
def parseHeadData (headerData : List Char) : Except ParseError RequestModel :=
  if (splitCRLF headerData).length < 1 then .error .invalidRequestFormat
  else
    match fieldsGo (splitCRLF headerData).head! with
    | [m, p, v] =>
      let hdrs := parseHeaderLines (splitCRLF headerData)
      match hlookup contentLengthKey hdrs with
      | some cl =>
        match goParseInt cl with
        | some n =>
          .ok { method := m, path := p, version := v, headers := hdrs,
                bodySize := n, isChunked := false, body := .limited n }
        | none => .error (.invalidContentLength cl)
      | none =>
        match hlookup transferEncodingKey hdrs with
        | some te =>
          if lowerL te = chunkedValue then
            .ok { method := m, path := p, version := v, headers := hdrs,
                  bodySize := -1, isChunked := true, body := .chunked }
          else
            .ok { method := m, path := p, version := v, headers := hdrs,
                  bodySize := 0, isChunked := false, body := .empty }
        | none =>
          .ok { method := m, path := p, version := v, headers := hdrs,
                bodySize := 0, isChunked := false, body := .empty }
    | _ => .error .malformedRequestLine

/-- `(s *HTTPServer) parseRequest(conn)` (`src/httpx/reader.go:124-198`):
read the header block from the connection, parse it, and return the request
together with the unread remainder of the connection (from which the body
will later be read lazily). -/
def parseRequest (maxH : Nat) (input : List Char) :
    Except ParseError (RequestModel × List Char) :=
  match readHead maxH [] input with
  | .error e => .error e
  | .ok (hd, rest) =>
    match parseHeadData hd with
    | .error e => .error e
    | .ok req => .ok (req, rest)

/-- Reading a request body stream to exhaustion against the unread remainder
of the connection, returning (bytes yielded, bytes left unconsumed):
* `empty`: `emptyReader.Read` returns `io.EOF` at once (`reader.go:10-12`);
* `limited n`: `io.LimitReader(reader, n)` yields at most `n` bytes and
  stops (a non-positive `n` yields nothing);
* `chunked`: `chunkedReader.Read` is `return c.reader.Read(p)` — a raw
  passthrough (the decoding logic is a TODO, `src/httpx/reader.go:22-25`),
  so exhausting the stream consumes every remaining connection byte. -/
def readBodyAll : BodyKind → List Char → List Char × List Char
  | .empty, rest => ([], rest)
  | .limited n, rest => (rest.take n.toNat, rest.drop n.toNat)
  | .chunked, rest => (rest, [])

/-- Parse a request and read its body stream to exhaustion, returning the
bytes the body stream yields (`none` when parsing fails). -/
def parsedBodyAllBytes (maxH : Nat) (input : List Char) : Option (List Char) :=
  match parseRequest maxH input with
  | .ok (req, rest) => some (readBodyAll req.body rest).1
  | .error _ => none

/-- Parse a request and read its body stream to exhaustion, returning the
connection bytes left for the next request (`none` when parsing fails). -/
def remainingAfterBodyDrain (maxH : Nat) (input : List Char) :
    Option (List Char) :=
  match parseRequest maxH input with
  | .ok (req, rest) => some (readBodyAll req.body rest).2
  | .error _ => none

deriving instance DecidableEq for Except

/-- Go `fmt.Sprintf("%x", n)`: lowercase hexadecimal digits of `n`
(used for chunk-size lines, `src/httpx/reader.go:251`). -/
def hexList (n : Nat) : List Char := Nat.toDigits 16 n

/-- Go `strconv.FormatInt(n, 10)` / `fmt.Sprintf("%d", n)` for an `int64`. -/
def intRepr (n : Int) : List Char :=
  if n < 0 then '-' :: Nat.toDigits 10 (-n).toNat else Nat.toDigits 10 n.toNat

/-- `(r *HTTPResponse) writeChunkedBody(conn)` (`src/httpx/reader.go:245-278`)
applied to an in-memory body: repeatedly read up to `DefaultChunkSize` bytes
and emit `<hex length>\r\n<bytes>\r\n` for each non-empty read, then emit the
terminating `0\r\n\r\n` chunk on end-of-stream.  The `fuel` argument only
bounds the recursion so the definition is structural and kernel-reducible;
each iteration consumes at least one body byte, so any `fuel ≥ bs.length`
behaves like the unbounded loop (`writeChunkedBody` passes `bs.length`). -/
def writeChunkedBodyFuel : Nat → List Char → List Char
  | _, [] => ['0', '\r', '\n', '\r', '\n']
  | 0, _ => ['0', '\r', '\n', '\r', '\n']
  | Nat.succ f, bs =>
    hexList (min defaultChunkSize bs.length) ++ ['\r', '\n'] ++
      bs.take defaultChunkSize ++ ['\r', '\n'] ++
      writeChunkedBodyFuel f (bs.drop defaultChunkSize)

/-- The byte stream produced by `writeChunkedBody` for body `bs`. -/
def writeChunkedBody (bs : List Char) : List Char :=
  writeChunkedBodyFuel bs.length bs

/-- The framing-header step of `(r *HTTPResponse) writeToConnection`
(`src/httpx/reader.go:210-214`): when the body size is known (`>= 0`) assign
`content-length`, else when a body is present assign
`transfer-encoding: chunked`, into the handler-supplied header map.  The map
is then emitted one line per entry (`src/httpx/reader.go:216-221`), so the
emitted block contains a given header name exactly when the map does.
(`getContentLength`, `src/httpx/reader.go:280-318`, computes `bodySize`
beforehand: a seekable or in-memory body gives its non-negative length, and
only a size-probe failure leaves `-1`.) -/
def responseFramingHeaders (bodySize : Int) (hasBody : Bool)
    (hs : List (List Char × List Char)) : List (List Char × List Char) :=
  if 0 ≤ bodySize then hinsert contentLengthKey (intRepr bodySize) hs
  else if hasBody then hinsert transferEncodingKey chunkedValue hs
  else hs

/-- The `HTTPServer` configuration fields involved in the lifecycle claims
(`src/httpx/reader.go:62-77`); durations are modelled in whole seconds. -/
structure ServerConfig where
  enableKeepAlive : Bool
  maxKeepAliveRequests : Nat
  keepAliveTimeout : Nat
  maxHeaderSize : Nat

/-- `(s *HTTPServer) shouldKeepConnectionAlive(req, res)`
(`src/httpx/reader.go:320-338`); the Go function also receives the response
but never reads it.  Disabled keep-alive always answers false; `HTTP/1.1`
keeps alive unless the `connection` header lower-cases to `"close"`;
`HTTP/1.0` keeps alive only when it lower-cases to `"keep-alive"`; any other
version answers false. -/
def shouldKeepConnectionAlive (s : ServerConfig) (req : RequestModel) : Bool :=
  if !s.enableKeepAlive then false
  else if req.version = http11Version then
    match hlookup connectionKey req.headers with
    | some v => !(lowerL v == closeValue)
    | none => true
  else if req.version = http10Version then
    match hlookup connectionKey req.headers with
    | some v => lowerL v == keepAliveValue
    | none => false
  else false

/-- The keep-alive hint value `fmt.Sprintf("timeout=%d, max=%d", ...)`
written when the exchange keeps the connection alive
(`src/httpx/reader.go:397-398`); `requestCount` is the count after the
current exchange was counted. -/
def keepAliveHintValue (s : ServerConfig) (requestCount : Nat) : List Char :=
  "timeout=".toList ++ Nat.toDigits 10 s.keepAliveTimeout ++ ", max=".toList ++
    intRepr ((s.maxKeepAliveRequests : Int) - (requestCount : Int))

/-- The response-header annotation in `handleConnection`
(`src/httpx/reader.go:392-404`): assign `connection: keep-alive` plus the
`keep-alive` hint when the exchange keeps the connection alive, else assign
`connection: close`. -/
def annotateResponseHeaders (s : ServerConfig) (keepAlive : Bool)
    (requestCount : Nat) (hs : List (List Char × List Char)) :
    List (List Char × List Char) :=
  if keepAlive then
    hinsert keepAliveKey (keepAliveHintValue s requestCount)
      (hinsert connectionKey keepAliveValue hs)
  else hinsert connectionKey closeValue hs

/-- The pre-read keep-alive policy checks at the top of the
`handleConnection` loop (`src/httpx/reader.go:348-359`): they run only when
keep-alive is enabled, and stop the loop when the request count has reached
the maximum or the elapsed time strictly exceeds the keep-alive timeout. -/
def preReadStop (s : ServerConfig) (requestCount elapsed : Nat) : Bool :=
  s.enableKeepAlive &&
    (decide (s.maxKeepAliveRequests ≤ requestCount) ||
      decide (s.keepAliveTimeout < elapsed))

/-- Outcome of one iteration of the `handleConnection` loop, up to the
keep-alive decision: the loop either stops before reading any bytes, stops
because parsing failed, or completes an exchange (the handler and response
writing do not influence which of these happens). -/
inductive IterationResult
  | stoppedBeforeParse
  | parseFailed (e : ParseError)
  | exchange (req : RequestModel) (keepAlive : Bool) (rest : List Char)
deriving DecidableEq

/-- One iteration of the `handleConnection` loop
(`src/httpx/reader.go:348-419`), given the request count so far, the elapsed
time observed by `time.Since(startTime)`, and the unread connection bytes:
run the pre-read policy checks, then parse a request and decide keep-alive
for the exchange. -/
def connectionIteration (s : ServerConfig) (requestCount elapsed : Nat)
    (input : List Char) : IterationResult :=
  if preReadStop s requestCount elapsed then .stoppedBeforeParse
  else
    match parseRequest s.maxHeaderSize input with
    | .error e => .parseFailed e
    | .ok (req, rest) => .exchange req (shouldKeepConnectionAlive s req) rest

/-- The wire bytes of the spec's concrete chunked scenario: a request head
with `Transfer-Encoding: chunked` followed by the chunked body
`"b\r\nHello World\r\n0\r\n\r\n"` (this is also the request sent by the
repository's own `TestChunkedTransferEncoding`). -/
def chunkedScenarioInput : List Char :=
  ("POST /chunked HTTP/1.1\r\nHost: localhost\r\n" ++
    "Transfer-Encoding: chunked\r\n\r\nb\r\nHello World\r\n0\r\n\r\n").toList

/-- The raw chunked framing bytes that follow the head in
`chunkedScenarioInput`. -/
def rawChunkFraming : List Char := "b\r\nHello World\r\n0\r\n\r\n".toList

/-- A second pipelined request appended after the chunked scenario for the
keep-alive positioning claim. -/
def secondRequestBytes : List Char :=
  "GET /second HTTP/1.1\r\nHost: localhost\r\n\r\n".toList

/-- A minimal well-formed GET request head. -/
def simpleGetInput : List Char := "GET / HTTP/1.1\r\n\r\n".toList

/-- The request `parseRequest` produces for `simpleGetInput`. -/
def simpleGetRequest : RequestModel :=
  { method := "GET".toList, path := "/".toList, version := "HTTP/1.1".toList,
    headers := [], bodySize := 0, isChunked := false, body := .empty }

/-- A server configuration with keep-alive disabled (all other fields at the
source defaults). -/
def noKeepAliveConfig : ServerConfig :=
  { enableKeepAlive := false, maxKeepAliveRequests := 100,
    keepAliveTimeout := 60, maxHeaderSize := 8192 }


/-- A server configuration with keep-alive enabled and a maximum of two
requests per connection. -/
def keepAliveMaxConfig : ServerConfig :=
  { enableKeepAlive := true, maxKeepAliveRequests := 2,
    keepAliveTimeout := 60, maxHeaderSize := 8192 }

/-- A POST request with `Content-Length: 5` followed by 8 connection bytes. -/
def contentLengthInput : List Char :=
  "POST /w HTTP/1.1\r\nContent-Length: 5\r\n\r\nHelloXYZ".toList

/-- The header block of `contentLengthInput`. -/
def contentLengthHead : List Char :=
  "POST /w HTTP/1.1\r\nContent-Length: 5\r\n\r\n".toList

/-- A POST request with the negative `Content-Length: -5`. -/
def negativeLengthInput : List Char :=
  "POST /n HTTP/1.1\r\nContent-Length: -5\r\n\r\nrest!".toList

/-- The header block of `negativeLengthInput`. -/
def negativeLengthHead : List Char :=
  "POST /n HTTP/1.1\r\nContent-Length: -5\r\n\r\n".toList


/-- `bytes.Split` never returns an empty list of segments. -/
theorem splitCRLF_ne_nil (s : List Char) : splitCRLF s ≠ [] := by
  rw [splitCRLF.eq_def]
  split
  · simp
  · simp
  · split <;> simp

theorem hlookup_cons (k ka va : List Char)
    (rest : List (List Char × List Char)) :
    hlookup k ((ka, va) :: rest) = if ka = k then some va else hlookup k rest := by
  cases h : ka == k with
  | true =>
    have he : ka = k := by simpa using h
    simp [hlookup, List.find?, h, he]
  | false =>
    have he : ¬ ka = k := by simpa using h
    simp [hlookup, List.find?, h, he]

theorem hinsert_cons (k2 v ka va : List Char)
    (rest : List (List Char × List Char)) :
    hinsert k2 v ((ka, va) :: rest) =
      if ka = k2 then (k2, v) :: rest else (ka, va) :: hinsert k2 v rest := by
  rfl

/-- Map assignment followed by lookup behaves like a Go map. -/
theorem hlookup_hinsert (k k2 v : List Char)
    (hs : List (List Char × List Char)) :
    hlookup k (hinsert k2 v hs) = if k = k2 then some v else hlookup k hs := by
  induction hs with
  | nil =>
    by_cases h : k = k2
    · subst h
      simp [hinsert, hlookup_cons]
    · have h2 : ¬ k2 = k := fun hh => h hh.symm
      simp [hinsert, hlookup_cons, h, h2, hlookup]
  | cons p rest ih =>
    obtain ⟨ka, va⟩ := p
    rw [hinsert_cons]
    by_cases h1 : ka = k2
    · subst h1
      rw [if_pos rfl]
      by_cases h2 : k = ka
      · subst h2
        simp [hlookup_cons]
      · have h2s : ¬ ka = k := fun hh => h2 hh.symm
        rw [hlookup_cons, if_neg h2s, if_neg h2, hlookup_cons, if_neg h2s]
    · rw [if_neg h1]
      by_cases h2 : ka = k
      · have h3 : ¬ k = k2 := fun hh => h1 (h2.trans hh)
        rw [hlookup_cons, if_pos h2, if_neg h3, hlookup_cons, if_pos h2]
      · rw [hlookup_cons, if_neg h2, ih, hlookup_cons, if_neg h2]

theorem splitCRLF_length_pos (s : List Char) : ¬ (splitCRLF s).length < 1 := by
  intro hlt
  exact splitCRLF_ne_nil s (List.length_eq_zero.mp (by omega))

/-- `parseRequest` is `readHead` followed by `parseHeadData`. -/
theorem parseRequest_eq (maxH : Nat) (input hd rest : List Char)
    (hh : readHead maxH [] input = .ok (hd, rest)) :
    parseRequest maxH input =
      match parseHeadData hd with
      | .error e => .error e
      | .ok req => .ok (req, rest) := by
  unfold parseRequest
  rw [hh]

/-- Body framing chosen by `parseHeadData` when a `content-length` header is
present: a parsable value gives a fixed-length body, an unparsable one the
invalid-content-length error (`src/httpx/reader.go:180-187`). -/
theorem parseHeadData_contentLength (hd m p v cl : List Char)
    (hline : fieldsGo (splitCRLF hd).head! = [m, p, v])
    (hcl : hlookup contentLengthKey (parseHeaderLines (splitCRLF hd)) =
      some cl) :
    (∀ n : Int, goParseInt cl = some n →
      parseHeadData hd =
        .ok { method := m, path := p, version := v,
              headers := parseHeaderLines (splitCRLF hd), bodySize := n,
              isChunked := false, body := .limited n }) ∧
    (goParseInt cl = none →
      parseHeadData hd = .error (.invalidContentLength cl)) := by
  constructor
  · intro n hn
    simp [parseHeadData, splitCRLF_length_pos hd, hline, hcl, hn]
  · intro hn
    simp [parseHeadData, splitCRLF_length_pos hd, hline, hcl, hn]

/-- With a three-token request line, `parseHeadData` never reports a
malformed request line, and any successful parse carries the three tokens
verbatim (`src/httpx/reader.go:153-164`). -/
theorem parseHeadData_threeTokens (hd m p v : List Char)
    (hline : fieldsGo (splitCRLF hd).head! = [m, p, v]) :
    parseHeadData hd ≠ .error .malformedRequestLine ∧
    ∀ req, parseHeadData hd = .ok req →
      req.method = m ∧ req.path = p ∧ req.version = v := by
  cases hcl : hlookup contentLengthKey (parseHeaderLines (splitCRLF hd)) with
  | some cl =>
    cases hn : goParseInt cl with
    | some n =>
      constructor
      · simp [parseHeadData, splitCRLF_length_pos hd, hline, hcl, hn]
      · intro req hreq
        simp [parseHeadData, splitCRLF_length_pos hd, hline, hcl, hn] at hreq
        simp [← hreq]
    | none =>
      constructor
      · simp [parseHeadData, splitCRLF_length_pos hd, hline, hcl, hn]
      · intro req hreq
        simp [parseHeadData, splitCRLF_length_pos hd, hline, hcl, hn] at hreq
  | none =>
    cases hte : hlookup transferEncodingKey (parseHeaderLines (splitCRLF hd)) with
    | some te =>
      by_cases hch : lowerL te = chunkedValue
      · constructor
        · simp [parseHeadData, splitCRLF_length_pos hd, hline, hcl, hte, hch]
        · intro req hreq
          simp [parseHeadData, splitCRLF_length_pos hd, hline, hcl, hte, hch]
            at hreq
          simp [← hreq]
      · constructor
        · simp [parseHeadData, splitCRLF_length_pos hd, hline, hcl, hte, hch]
        · intro req hreq
          simp [parseHeadData, splitCRLF_length_pos hd, hline, hcl, hte, hch]
            at hreq
          simp [← hreq]
    | none =>
      constructor
      · simp [parseHeadData, splitCRLF_length_pos hd, hline, hcl, hte]
      · intro req hreq
        simp [parseHeadData, splitCRLF_length_pos hd, hline, hcl, hte] at hreq
        simp [← hreq]

/-- A request line that does not split into exactly three tokens makes
`parseHeadData` fail with the malformed-request-line error
(`src/httpx/reader.go:154-156`). -/
theorem parseHeadData_notThree (hd : List Char)
    (h : (fieldsGo (splitCRLF hd).head!).length ≠ 3) :
    parseHeadData hd = .error .malformedRequestLine := by
  rcases hF : fieldsGo (splitCRLF hd).head! with _ | ⟨a, _ | ⟨b, _ | ⟨c, _ | ⟨d, t⟩⟩⟩⟩
  · simp [parseHeadData, splitCRLF_length_pos hd, hF]
  · simp [parseHeadData, splitCRLF_length_pos hd, hF]
  · simp [parseHeadData, splitCRLF_length_pos hd, hF]
  · rw [hF] at h
    simp at h
  · simp [parseHeadData, splitCRLF_length_pos hd, hF]

/-- `ReadBytes` on a newline-free prefix followed by a newline returns
exactly that line. -/
theorem readLine_of_append (b rest : List Char) (h : '\n' ∉ b) :
    readLine (b ++ '\n' :: rest) = some (b ++ ['\n'], rest) := by
  induction b with
  | nil => simp [readLine]
  | cons c cs ih =>
    have hc : ¬ c = '\n' := fun hh => h (by simp [hh])
    have hcs : '\n' ∉ cs := fun hh => h (List.mem_cons_of_mem _ hh)
    simp [readLine, hc, ih hcs]

/-- The head-reading loop fails with `headerTooLarge` whenever the complete
lines fed to it (none of them the bare CRLF terminator) cumulatively exceed
the ceiling, regardless of what follows them — the suffix is never read. -/
theorem readHeadFuel_overflow (maxH : Nat) (bodies : List (List Char)) :
    ∀ (fuel : Nat) (buf suffix : List Char),
      (∀ b ∈ bodies, '\n' ∉ b) → (∀ b ∈ bodies, b ≠ ['\r']) →
      ((bodies.map (fun b => b ++ ['\n'])).flatten ++ suffix).length < fuel →
      buf.length ≤ maxH →
      maxH < buf.length + (bodies.map (fun b => b.length + 1)).sum →
      readHeadFuel maxH fuel buf
        ((bodies.map (fun b => b ++ ['\n'])).flatten ++ suffix) =
        .error .headerTooLarge := by
  induction bodies with
  | nil =>
    intro fuel buf suffix _ _ _ hbuf hsum
    simp at hsum
    omega
  | cons b bs ih =>
    intro fuel buf suffix hnl hncr hfuel hbuf hsum
    have hnlb : '\n' ∉ b := hnl b (List.mem_cons_self b bs)
    have hncrb : b ≠ ['\r'] := hncr b (List.mem_cons_self b bs)
    have hinput : ((b :: bs).map (fun x => x ++ ['\n'])).flatten ++ suffix =
        b ++ '\n' :: ((bs.map (fun x => x ++ ['\n'])).flatten ++ suffix) := by
      simp
    rw [hinput] at hfuel ⊢
    cases fuel with
    | zero => omega
    | succ f =>
      simp only [readHeadFuel, readLine_of_append b _ hnlb]
      have hne : ¬ (b ++ ['\n'] = ['\r', '\n']) := by
        intro hh
        apply hncrb
        have h2 := congrArg List.dropLast hh
        simpa using h2
      rw [if_neg hne]
      by_cases hover : maxH < (buf ++ (b ++ ['\n'])).length
      · rw [if_pos hover]
      · rw [if_neg hover]
        have hfuel2 :
            ((bs.map (fun x => x ++ ['\n'])).flatten ++ suffix).length < f := by
          simp [List.length_append] at hfuel ⊢
          omega
        have hbuf2 : (buf ++ (b ++ ['\n'])).length ≤ maxH := by omega
        have hsum2 : maxH < (buf ++ (b ++ ['\n'])).length +
            (bs.map (fun x => x.length + 1)).sum := by
          simp [List.length_append] at hsum ⊢
          omega
        exact ih f (buf ++ (b ++ ['\n'])) suffix
          (fun x hx => hnl x (List.mem_cons_of_mem _ hx))
          (fun x hx => hncr x (List.mem_cons_of_mem _ hx))
          hfuel2 hbuf2 hsum2


/-- C1: the spec's chunked scenario claims the body stream yields exactly the
11 bytes "Hello World"; the code's `chunkedReader.Read` is an unimplemented
passthrough (`// TODO: Implement chunked reading logic`,
`src/httpx/reader.go:22-25`), so reading the body stream returned by
`parseRequest` to exhaustion yields the 21 raw framing bytes
`"b\r\nHello World\r\n0\r\n\r\n"` instead (the repository's own
`TestChunkedTransferEncoding` asserts the 11 decoded bytes and is
contradicted by this behaviour). -/
theorem C1_chunked_body_passthrough :
    parsedBodyAllBytes 8192 chunkedScenarioInput = some rawChunkFraming ∧
    rawChunkFraming ≠ "Hello World".toList ∧
    rawChunkFraming.length = 21 := by decide

/-- C2: the chunked round trip fails on the code: encoding a body through
`writeChunkedBody` and feeding the produced bytes to the chunked reader
(a raw passthrough, `src/httpx/reader.go:22-25`) returns the framed bytes,
not the original body, already for bodies of length 0 and 1. -/
theorem C2_chunked_roundtrip_fails :
    (readBodyAll .chunked (writeChunkedBody [])).1 = "0\r\n\r\n".toList ∧
    "0\r\n\r\n".toList ≠ ([] : List Char) ∧
    (readBodyAll .chunked (writeChunkedBody ['a'])).1 =
      "1\r\na\r\n0\r\n\r\n".toList ∧
    "1\r\na\r\n0\r\n\r\n".toList ≠ ['a'] := by decide

set_option maxRecDepth 4000 in
/-- C3: on a kept-alive connection carrying the chunked scenario followed by
a second request, draining the first request's body consumes the entire
connection stream (the passthrough `chunkedReader.Read` never stops at the
chunked terminator, `src/httpx/reader.go:22-25`), so nothing is left at the
position where the second request's head should begin and parsing the second
request fails instead of succeeding. -/
theorem C3_body_drain_overruns_second_request :
    remainingAfterBodyDrain 8192 (chunkedScenarioInput ++ secondRequestBytes) =
      some [] ∧
    secondRequestBytes ≠ [] ∧
    parseRequest 8192 ([] : List Char) = .error .incompleteRead := by decide

/-- C4 counterexample: the claim says that when keep-alive is disabled the
lifecycle loop stops and closes the connection without parsing another
request; in the code the pre-read checks are guarded by
`if s.enableKeepAlive` (`src/httpx/reader.go:349`), so with keep-alive
disabled the first iteration still parses a request and completes an
exchange. -/
theorem C4_counterexample_disabled_still_parses :
    connectionIteration noKeepAliveConfig 0 0 simpleGetInput =
      .exchange simpleGetRequest false [] ∧
    connectionIteration noKeepAliveConfig 0 0 simpleGetInput ≠
      .stoppedBeforeParse := by decide

/-- C5 counterexample: a header block whose cumulative size (18 bytes,
terminating blank line included) exceeds the ceiling `maxHeaderSize = 17` is
parsed successfully, because the blank-line check precedes the size check in
the head-reading loop (`src/httpx/reader.go:137-143`); the claim says every
such block fails with a headers-too-large error. -/
theorem C5_counterexample_terminator_crossing :
    readHead 17 [] simpleGetInput = .ok (simpleGetInput, []) ∧
    17 < simpleGetInput.length ∧
    parseRequest 17 simpleGetInput = .ok (simpleGetRequest, []) := by decide

/-- C7 counterexample: a request whose first line tokenizes into exactly
three fields can still fail to parse — a non-numeric `content-length` makes
`parseRequest` fail with the invalid-content-length error
(`src/httpx/reader.go:180-187`) — refuting the claim that three tokens imply
`parseRequest` succeeds. -/
theorem C7_counterexample_three_tokens_failure :
    fieldsGo "GET / HTTP/1.1".toList =
      ["GET".toList, "/".toList, "HTTP/1.1".toList] ∧
    parseRequest 8192
        "GET / HTTP/1.1\r\ncontent-length: abc\r\n\r\n".toList =
      .error (.invalidContentLength "abc".toList) := by decide

/-- C9 counterexample: the encoder only assigns the framing header it
chooses, without removing a conflicting handler-supplied one
(`src/httpx/reader.go:210-214`): a handler-supplied header map already
containing `transfer-encoding: chunked` combined with a known body size
yields an emitted header block containing both `content-length` and
`transfer-encoding: chunked`. -/
theorem C9_counterexample_both_framings :
    hlookup contentLengthKey
        (responseFramingHeaders 5 true
          [(transferEncodingKey, "chunked".toList)]) = some ['5'] ∧
    hlookup transferEncodingKey
        (responseFramingHeaders 5 true
          [(transferEncodingKey, "chunked".toList)]) =
      some "chunked".toList := by decide

/-- C4 (amended): when keep-alive is enabled, the pre-read policy checks
stop the lifecycle loop before any bytes of the next request are read as
soon as the request count has reached `maxKeepAliveRequests` or the elapsed
time strictly exceeds the keep-alive timeout — in particular after
`maxKeepAliveRequests` exchanges the connection closes even if peer and
handler request keep-alive; when keep-alive is disabled the pre-read checks
are skipped (the loop parses a request) and instead the per-exchange
keep-alive decision is always negative, so the connection closes after the
exchange (`src/httpx/reader.go:348-359,414-416`). -/
theorem C4_keepalive_limits (s : ServerConfig) (count elapsed : Nat)
    (input : List Char) :
    (s.enableKeepAlive = true →
      s.maxKeepAliveRequests ≤ count ∨ s.keepAliveTimeout < elapsed →
      connectionIteration s count elapsed input = .stoppedBeforeParse) ∧
    (s.enableKeepAlive = false → ∀ req : RequestModel,
      shouldKeepConnectionAlive s req = false) := by
  constructor
  · intro he hc
    have hp : preReadStop s count elapsed = true := by
      unfold preReadStop
      rw [he]
      rcases hc with h | h <;> simp [h]
    simp [connectionIteration, hp]
  · intro he req
    simp [shouldKeepConnectionAlive, he]

theorem C4_keepalive_limits_witness :
    connectionIteration keepAliveMaxConfig 2 0 simpleGetInput =
      .stoppedBeforeParse :=
  (C4_keepalive_limits keepAliveMaxConfig 2 0 simpleGetInput).1 rfl
    (Or.inl (by decide))

/-- C5 (amended): whenever the complete header lines before the blank-line
terminator cumulatively exceed `maxHeaderSize`, `parseRequest` fails with
the headers-too-large error before the terminator is reached and without
consuming anything beyond the line that crossed the ceiling (the suffix,
which would contain the terminator, is arbitrary and never read); a header
block that exceeds the ceiling only when its terminating blank line is
counted is, however, accepted (see the counterexample). -/
theorem C5_header_too_large (maxH : Nat) (bodies : List (List Char))
    (suffix : List Char)
    (hnl : ∀ b ∈ bodies, '\n' ∉ b) (hncr : ∀ b ∈ bodies, b ≠ ['\r'])
    (hsize : maxH < (bodies.map (fun b => b.length + 1)).sum) :
    parseRequest maxH ((bodies.map (fun b => b ++ ['\n'])).flatten ++ suffix) =
      .error .headerTooLarge := by
  unfold parseRequest readHead
  rw [readHeadFuel_overflow maxH bodies _ [] suffix hnl hncr (by omega)
    (by simp) (by simpa using hsize)]

theorem C5_header_too_large_witness :
    parseRequest 3
        (([['a', 'b', 'c', 'd']].map (fun b => b ++ ['\n'])).flatten ++ []) =
      .error .headerTooLarge :=
  C5_header_too_large 3 [['a', 'b', 'c', 'd']] [] (by decide) (by decide)
    (by decide)

/-- C6: with keep-alive enabled, an HTTP/1.1 request keeps the connection
alive exactly when its `connection` header does not lower-case to `close`,
an HTTP/1.0 request exactly when its `connection` header lower-cases to
`keep-alive`; and the response headers sent for the exchange carry
`connection: keep-alive` plus the keep-alive timeout/max hint when the
connection is kept alive, and `connection: close` otherwise
(`src/httpx/reader.go:320-338,392-404`). -/
theorem C6_keepalive_decision (s : ServerConfig) (req : RequestModel)
    (hs : List (List Char × List Char)) (count : Nat)
    (hen : s.enableKeepAlive = true) :
    (req.version = http11Version →
      (shouldKeepConnectionAlive s req = true ↔
        ∀ v, hlookup connectionKey req.headers = some v →
          lowerL v ≠ closeValue)) ∧
    (req.version = http10Version →
      (shouldKeepConnectionAlive s req = true ↔
        ∃ v, hlookup connectionKey req.headers = some v ∧
          lowerL v = keepAliveValue)) ∧
    (hlookup connectionKey (annotateResponseHeaders s true count hs) =
        some keepAliveValue ∧
      hlookup keepAliveKey (annotateResponseHeaders s true count hs) =
        some (keepAliveHintValue s count)) ∧
    hlookup connectionKey (annotateResponseHeaders s false count hs) =
      some closeValue := by
  have hne10 : ¬ (http10Version = http11Version) := by decide
  have hkc : ¬ (connectionKey = keepAliveKey) := by decide
  refine ⟨?_, ?_, ⟨?_, ?_⟩, ?_⟩
  · intro hv
    cases hl : hlookup connectionKey req.headers with
    | none => simp [shouldKeepConnectionAlive, hen, hv, hl]
    | some w => simp [shouldKeepConnectionAlive, hen, hv, hl]
  · intro hv
    cases hl : hlookup connectionKey req.headers with
    | none => simp [shouldKeepConnectionAlive, hen, hv, hl, hne10]
    | some w => simp [shouldKeepConnectionAlive, hen, hv, hl, hne10]
  · simp [annotateResponseHeaders, hlookup_hinsert, hkc]
  · simp [annotateResponseHeaders, hlookup_hinsert]
  · simp [annotateResponseHeaders, hlookup_hinsert]

theorem C6_keepalive_decision_witness :
    shouldKeepConnectionAlive keepAliveMaxConfig simpleGetRequest = true := by
  have h := (C6_keepalive_decision keepAliveMaxConfig simpleGetRequest [] 1
    rfl).1 (by decide)
  refine h.mpr ?_
  intro v hv
  simp [simpleGetRequest, hlookup, List.find?] at hv

/-- C7 (amended): when the header block is read successfully and its first
line splits into exactly three whitespace-separated tokens, `parseRequest`
never fails with the malformed-request-line error, and whenever it succeeds
the request's `Method`, `Path` and `Version` are the three tokens verbatim,
with no validation of their contents; when the token count differs from
three it fails with the malformed-request-line error.  (Three tokens alone
do not guarantee success: other validations, such as a non-numeric
`content-length`, can still reject the request — see the counterexample.) -/
theorem C7_request_line (maxH : Nat) (input hd rest : List Char)
    (hh : readHead maxH [] input = .ok (hd, rest)) :
    (∀ m p v, fieldsGo (splitCRLF hd).head! = [m, p, v] →
      parseRequest maxH input ≠ .error .malformedRequestLine ∧
      ∀ req rest2, parseRequest maxH input = .ok (req, rest2) →
        req.method = m ∧ req.path = p ∧ req.version = v ∧ rest2 = rest) ∧
    ((fieldsGo (splitCRLF hd).head!).length ≠ 3 →
      parseRequest maxH input = .error .malformedRequestLine) := by
  rw [parseRequest_eq maxH input hd rest hh]
  constructor
  · intro m p v hline
    have h3 := parseHeadData_threeTokens hd m p v hline
    cases hq : parseHeadData hd with
    | error e =>
      constructor
      · intro hbad
        simp at hbad
        exact h3.1 (by rw [hq, hbad])
      · intro req rest2 hok
        simp at hok
    | ok req0 =>
      constructor
      · intro hbad
        simp at hbad
      · intro req rest2 hok
        simp at hok
        obtain ⟨h1, h2⟩ := hok
        obtain ⟨hm, hp, hv⟩ := h3.2 req0 hq
        subst h1
        exact ⟨hm, hp, hv, h2.symm⟩
  · intro hlen
    rw [parseHeadData_notThree hd hlen]

theorem C7_request_line_witness :
    parseRequest 8192 simpleGetInput ≠ .error .malformedRequestLine :=
  ((C7_request_line 8192 simpleGetInput simpleGetInput [] (by decide)).1
    "GET".toList "/".toList "HTTP/1.1".toList (by decide)).1

/-- C8: when the header block parses with a three-token request line and a
`content-length` header whose value parses as a non-negative integer `n`,
`parseRequest` succeeds, sets the declared body size to `n`, and the body
stream yields exactly the next `n` connection bytes (all of the first `n`,
and no more) when enough are available; a non-numeric `content-length` value
fails with the invalid-content-length error
(`src/httpx/reader.go:180-187`). -/
theorem C8_content_length_framing (maxH : Nat)
    (input hd rest m p v cl : List Char)
    (hh : readHead maxH [] input = .ok (hd, rest))
    (hline : fieldsGo (splitCRLF hd).head! = [m, p, v])
    (hcl : hlookup contentLengthKey (parseHeaderLines (splitCRLF hd)) =
      some cl) :
    (∀ n : Int, goParseInt cl = some n → 0 ≤ n →
      parseRequest maxH input =
        .ok ({ method := m, path := p, version := v,
               headers := parseHeaderLines (splitCRLF hd), bodySize := n,
               isChunked := false, body := .limited n }, rest) ∧
      (readBodyAll (.limited n) rest).1 = rest.take n.toNat ∧
      (n.toNat ≤ rest.length →
        (readBodyAll (.limited n) rest).1.length = n.toNat)) ∧
    (goParseInt cl = none →
      parseRequest maxH input = .error (.invalidContentLength cl)) := by
  have hP := parseHeadData_contentLength hd m p v cl hline hcl
  constructor
  · intro n hn hnn
    refine ⟨?_, rfl, ?_⟩
    · rw [parseRequest_eq maxH input hd rest hh, hP.1 n hn]
    · intro hle
      simp [readBodyAll, List.length_take]
      omega
  · intro hn
    rw [parseRequest_eq maxH input hd rest hh, hP.2 hn]

theorem C8_content_length_framing_witness :
    parseRequest 8192 contentLengthInput =
      .ok ({ method := "POST".toList, path := "/w".toList,
             version := "HTTP/1.1".toList,
             headers := parseHeaderLines (splitCRLF contentLengthHead),
             bodySize := 5, isChunked := false, body := .limited 5 },
        "HelloXYZ".toList) ∧
    (readBodyAll (.limited 5) "HelloXYZ".toList).1 =
      "HelloXYZ".toList.take (5 : Int).toNat := by
  have h := (C8_content_length_framing 8192 contentLengthInput
    contentLengthHead "HelloXYZ".toList "POST".toList "/w".toList
    "HTTP/1.1".toList ['5'] (by decide) (by decide) (by decide)).1 5
    (by decide) (by decide)
  exact ⟨h.1, h.2.1⟩

/-- C9 (amended): the encoder itself chooses exactly one framing — known
body size assigns `content-length` and leaves `transfer-encoding` unset,
unknown size with a body assigns `transfer-encoding: chunked` and leaves
`content-length` unset, and no body assigns neither — so the emitted block
contains both framing headers only when the handler-supplied map already
contained the conflicting one (the encoder does not strip such a header;
see the counterexample). -/
theorem C9_framing_exclusive (bodySize : Int) (hasBody : Bool)
    (hs : List (List Char × List Char))
    (hcl : hlookup contentLengthKey hs = none)
    (hte : hlookup transferEncodingKey hs = none) :
    (0 ≤ bodySize →
      hlookup contentLengthKey (responseFramingHeaders bodySize hasBody hs) =
        some (intRepr bodySize) ∧
      hlookup transferEncodingKey
        (responseFramingHeaders bodySize hasBody hs) = none) ∧
    (bodySize < 0 → hasBody = true →
      hlookup transferEncodingKey (responseFramingHeaders bodySize hasBody hs) =
        some chunkedValue ∧
      hlookup contentLengthKey
        (responseFramingHeaders bodySize hasBody hs) = none) ∧
    (bodySize < 0 → hasBody = false →
      hlookup contentLengthKey (responseFramingHeaders bodySize hasBody hs) =
        none ∧
      hlookup transferEncodingKey
        (responseFramingHeaders bodySize hasBody hs) = none) := by
  have hne : ¬ (contentLengthKey = transferEncodingKey) := by decide
  have hne2 : ¬ (transferEncodingKey = contentLengthKey) := by decide
  refine ⟨?_, ?_, ?_⟩
  · intro h
    simp [responseFramingHeaders, if_pos h, hlookup_hinsert, hne2, hte]
  · intro h hb
    have hn : ¬ 0 ≤ bodySize := by omega
    simp [responseFramingHeaders, hn, hb, hlookup_hinsert, hne, hcl]
  · intro h hb
    have hn : ¬ 0 ≤ bodySize := by omega
    simp [responseFramingHeaders, hn, hb, hcl, hte]

theorem C9_framing_exclusive_witness :
    hlookup contentLengthKey (responseFramingHeaders 5 true []) =
      some ['5'] ∧
    hlookup transferEncodingKey (responseFramingHeaders 5 true []) = none := by
  have h := (C9_framing_exclusive 5 true [] rfl rfl).1 (by decide)
  exact ⟨h.1.trans (by decide), h.2⟩

/-- C10: a `content-length` value that parses as a negative integer (such
as `-5`) is not rejected: `strconv.ParseInt` accepts it, `parseRequest`
succeeds with the negative declared body size, and the body stream
`io.LimitReader(reader, n)` with `n < 0` reports end-of-stream immediately,
yielding no bytes and consuming nothing (`src/httpx/reader.go:180-187`). -/
theorem C10_negative_content_length (maxH : Nat)
    (input hd rest m p v cl : List Char) (n : Int)
    (hh : readHead maxH [] input = .ok (hd, rest))
    (hline : fieldsGo (splitCRLF hd).head! = [m, p, v])
    (hcl : hlookup contentLengthKey (parseHeaderLines (splitCRLF hd)) =
      some cl)
    (hn : goParseInt cl = some n) (hneg : n < 0) :
    parseRequest maxH input =
      .ok ({ method := m, path := p, version := v,
             headers := parseHeaderLines (splitCRLF hd), bodySize := n,
             isChunked := false, body := .limited n }, rest) ∧
    readBodyAll (.limited n) rest = ([], rest) := by
  constructor
  · rw [parseRequest_eq maxH input hd rest hh,
      (parseHeadData_contentLength hd m p v cl hline hcl).1 n hn]
  · have hz : n.toNat = 0 := Int.toNat_of_nonpos (le_of_lt hneg)
    simp [readBodyAll, hz]

theorem C10_negative_content_length_witness :
    parseRequest 8192 negativeLengthInput =
      .ok ({ method := "POST".toList, path := "/n".toList,
             version := "HTTP/1.1".toList,
             headers := parseHeaderLines (splitCRLF negativeLengthHead),
             bodySize := -5, isChunked := false, body := .limited (-5) },
        "rest!".toList) ∧
    readBodyAll (.limited (-5)) "rest!".toList = ([], "rest!".toList) :=
  C10_negative_content_length 8192 negativeLengthInput negativeLengthHead
    "rest!".toList "POST".toList "/n".toList "HTTP/1.1".toList "-5".toList
    (-5) (by decide) (by decide) (by decide) (by decide) (by decide)
